import Mathlib

/-!
Shallow embedding of `append_change_summary.py` (EscapeBudget,
`EscapeBudgetApp/skills/obsidian-change-summary/scripts/append_change_summary.py`).

The script computes a git change range, formats it as a markdown entry and
appends it to an Obsidian note, persisting a checkpoint.  External effects are
modelled explicitly:

* JSON files on disk are modelled by their parse outcome
  (`FileModel = Option (Option Json)`): absent, present-but-malformed, or
  parsed value.  Python's `json.loads`/`json.dumps` pair is modelled as the
  identity on parsed values.
* Each git query of the script's VCS facade is a field of a `Git` oracle whose
  value is the processed result of the query, `Except.error` when the
  underlying `git` command exits non-zero (in which case `_run_git` raises).
* Python exceptions propagating out of a function are modelled by
  `Except.error`; Python truthiness of optional strings, JSON values and
  optional lists is modelled by the `pyTruthy*`/`Json.truthy` functions.
-/

namespace ChangeSummary

/-- Minimal model of a parsed JSON value (the scalar and object shapes the
script's configuration and state files use). -/
inductive Json where
  | null
  | bool (b : Bool)
  | int (n : Int)
  | str (s : String)
  | obj (kvs : List (String × Json))

/-- Python `s.rstrip()`: drop trailing whitespace characters. -/
def rstrip (s : String) : String :=
  String.mk ((s.data.reverse.dropWhile Char.isWhitespace).reverse)

/-- Python `s.strip()`: drop leading and trailing whitespace characters. -/
def pyStrip (s : String) : String :=
  rstrip (String.mk (s.data.dropWhile Char.isWhitespace))

/-- Python truthiness of a JSON value (`if raw.get(...)`, `bool(...)`). -/
def Json.truthy : Json → Bool
  | .null => false
  | .bool b => b
  | .int n => n != 0
  | .str s => s != ""
  | .obj kvs => !kvs.isEmpty

/-- Python `str(...)` applied to a JSON value.  (The `obj` case abbreviates
Python's dict repr, which no code path under verification observes.) -/
def pyStr : Json → String
  | .null => "None"
  | .bool true => "True"
  | .bool false => "False"
  | .int n => toString n
  | .str s => s
  | .obj _ => "dict"

/-- Python `int(...)` applied to a JSON value: ints pass through, bools map to
0/1, numeric strings are parsed (raising `ValueError` otherwise), and any other
value raises `TypeError`.  (Underscored or `+`-prefixed numeric strings, which
no configuration under verification uses, are treated as non-numeric.) -/
def pyInt : Json → Except String Int
  | .int n => .ok n
  | .bool b => .ok (if b then 1 else 0)
  | .str s =>
    match (pyStrip s).toInt? with
    | some n => .ok n
    | none => .error "ValueError"
  | _ => .error "TypeError"

/-- Python `dict.get(key)`: `none` when the key is missing; raises
`AttributeError` when the receiver is not a dict (a non-object JSON file). -/
def dictGet : Json → String → Except String (Option Json)
  | .obj kvs, key => .ok (kvs.lookup key)
  | _, _ => .error "AttributeError"

/-- A JSON file on disk, by parse outcome: `none` = absent,
`some none` = present but unreadable or malformed,
`some (some j)` = present and parsing to `j`. -/
def FileModel : Type := Option (Option Json)

/-- `_read_json`: returns `{}` when the file is absent (only
`FileNotFoundError` is caught); any other read/parse failure propagates. -/
def read_json : FileModel → Except String Json
  | none => .ok (.obj [])
  | some none => .error "JSONDecodeError"
  | some (some j) => .ok j

/-- `_write_json` on the state file: the written text parses back to the
written value (dumps/loads round-trip). -/
def write_json (j : Json) : FileModel := some (some j)

/-- `_load_last_sha`: read the state file, return the trimmed `last_sha`
string when it is a string with non-blank content, else `None`. -/
def load_last_sha (stateFile : FileModel) : Except String (Option String) := do
  let raw ← read_json stateFile
  let sha ← dictGet raw "last_sha"
  match sha with
  | some (.str s) => pure (if pyStrip s != "" then some (pyStrip s) else none)
  | _ => pure none

/-- `_write_last_sha`: overwrite the state file with `{"last_sha": sha}`. -/
def write_last_sha (sha : String) : FileModel :=
  write_json (.obj [("last_sha", .str sha)])

/-- Immutable configuration snapshot (`Config` dataclass).  The two optional
fields keep the raw JSON value, as `raw.get(...)` does. -/
structure Config where
  obsidian_note_path : Option Json
  project_name : Option Json
  base_ref : String
  include_diffstat : Bool
  max_commits : Int
  max_files : Int

/-- The `for p in config_paths: if p.exists(): raw = _read_json(p); break`
loop of `_load_config`, over the two candidate configuration files; `raw`
defaults to `{}` when neither file exists. -/
def pickConfigRaw (cfg1 cfg2 : FileModel) : Except String Json :=
  match cfg1 with
  | some c => read_json (some c)
  | none =>
    match cfg2 with
    | some c => read_json (some c)
    | none => .ok (.obj [])

/-- `_load_config`: build the `Config` from the first existing configuration
file, with Python coercions (`str(... or "origin/main")`,
`bool(raw.get("include_diffstat", True))`, `int(raw.get(...))`). -/
def load_config (cfg1 cfg2 : FileModel) : Except String Config := do
  let raw ← pickConfigRaw cfg1 cfg2
  let note ← dictGet raw "obsidian_note_path"
  let proj ← dictGet raw "project_name"
  let baseRaw ← dictGet raw "base_ref"
  let base_ref :=
    match baseRaw with
    | some v => if v.truthy then pyStr v else "origin/main"
    | none => "origin/main"
  let incRaw ← dictGet raw "include_diffstat"
  let include_diffstat :=
    match incRaw with
    | some v => v.truthy
    | none => true
  let mcRaw ← dictGet raw "max_commits"
  let max_commits ← pyInt (mcRaw.getD (.int 20))
  let mfRaw ← dictGet raw "max_files"
  let max_files ← pyInt (mfRaw.getD (.int 50))
  pure ⟨note, proj, base_ref, include_diffstat, max_commits, max_files⟩

/-- Python truthiness of an optional string (`if args.since:` etc.):
present and non-empty. -/
def pyTruthyStr : Option String → Bool
  | some s => s != ""
  | none => false

/-- Python truthiness of an optional list (`if working_tree:`):
present and non-empty. -/
def optListTruthy : Option (List String) → Bool
  | some l => !l.isEmpty
  | none => false

/-- Python `a or b` where `a` is an optional string and `b` a plain string
(`base_ref = args.base or cfg.base_ref`). -/
def pyOrStr (a : Option String) (b : String) : String :=
  if pyTruthyStr a then a.getD "" else b

/-- Python `a or b` on optional strings, preserving the right operand when the
left is falsy (`None` or `""`). -/
def pyOrSS (a b : Option String) : Option String :=
  if pyTruthyStr a then a else b

/-- A raw optional JSON value used in an `or`-chain of strings
(`cfg.obsidian_note_path`): truthy values contribute their `str` form, falsy
present values behave like `""`. -/
def jsonOptToStrOpt : Option Json → Option String
  | none => none
  | some v => if v.truthy then some (pyStr v) else some ""

/-- `_short_sha`: first 7 characters. -/
def short_sha (sha : String) : String := sha.take 7

/-- `Path(p).name`: the last non-empty component of a slash-separated path. -/
def path_name (p : String) : String :=
  (((p.splitOn "/").filter (fun c => c != "")).getLast?).getD ""

/-- Python `"\n".join(lines)`. -/
def joinLines : List String → String
  | [] => ""
  | [l] => l
  | l :: ls => l ++ "\n" ++ joinLines ls

/-- Python `s.endswith("\n")`: the last character is a newline. -/
def endsWithNewline (s : String) : Bool := s.data.getLast? == some '\n'

/-- The header block of `_format_entry` (title line, blank, repo line, range
line, blank). -/
def headerLines (ts title_project branch repoName start_sha end_sha : String) :
    List String :=
  ["## " ++ ts ++ " — " ++ title_project ++ " (" ++ branch ++ ")",
   "",
   "- Repo: " ++ repoName,
   "- Range: " ++ short_sha start_sha ++ ".." ++ short_sha end_sha,
   ""]

/-- The overflow line of a truncated list section:
`if bound >= 0 and len(items) > bound: "- …and {k} more"`. -/
def overflowLines (items : List String) (bound : Int) : List String :=
  if 0 ≤ bound ∧ (items.length : Int) > bound then
    ["- …and " ++ toString ((items.length : Int) - bound) ++ " more"]
  else []

/-- One truncated list section of `_format_entry`: title, the first
`max(0, bound)` items as bullets, the overflow line, then a blank line;
omitted entirely when the item list is empty.  The commits block (lines
180-187) and the files block (lines 189-196) are the two instances. -/
def listSection (title : String) (items : List String) (bound : Int) :
    List String :=
  if items = [] then []
  else
    title ::
      ((items.take (max 0 bound).toNat).map (fun s => "- " ++ s)
        ++ overflowLines items bound
        ++ [""])

/-- The `### Commits` block of `_format_entry`. -/
def commitsSection (commits : List String) (max_commits : Int) : List String :=
  listSection "### Commits" commits max_commits

/-- The `### Files` block of `_format_entry`. -/
def filesSection (files : List String) (max_files : Int) : List String :=
  listSection "### Files" files max_files

/-- The fenced `### Stats` block of `_format_entry` (`if diffstat:`). -/
def statsSection (diffstat : Option String) : List String :=
  match diffstat with
  | some d => if d != "" then ["### Stats", "```", d, "```", ""] else []
  | none => []

/-- The `### Working tree (uncommitted)` block of `_format_entry`
(`if working_tree:`), listing each status line as a bullet. -/
def wtSection (working_tree : Option (List String)) : List String :=
  match working_tree with
  | some wts =>
    if wts.isEmpty then []
    else "### Working tree (uncommitted)" :: (wts.map (fun w => "- " ++ w) ++ [""])
  | none => []

/-- The full `lines` list built by `_format_entry` before joining. -/
def formatLines (ts repo_root : String) (project_name : Option String)
    (branch start_sha end_sha : String) (commits files : List String)
    (diffstat : Option String) (working_tree : Option (List String))
    (max_commits max_files : Int) : List String :=
  headerLines ts
    (pyOrStr project_name (path_name repo_root)) branch (path_name repo_root)
    start_sha end_sha
  ++ commitsSection commits max_commits
  ++ filesSection files max_files
  ++ statsSection diffstat
  ++ wtSection working_tree

/-- `_format_entry`: join the lines, strip trailing whitespace, and append
exactly one newline (`"\n".join(lines).rstrip() + "\n"`). -/
def format_entry (ts repo_root : String) (project_name : Option String)
    (branch start_sha end_sha : String) (commits files : List String)
    (diffstat : Option String) (working_tree : Option (List String))
    (max_commits max_files : Int) : String :=
  rstrip (joinLines (formatLines ts repo_root project_name branch start_sha
    end_sha commits files diffstat working_tree max_commits max_files)) ++ "\n"

/-- `_append_to_note`: the note file's content after appending `entry`,
given the prior content (`none` when the file does not exist). -/
def append_to_note (existing : Option String) (entry : String) : String :=
  match existing with
  | some content =>
    content ++ (if endsWithNewline content then "" else "\n") ++ entry
  | none => entry

/-- Appending a sequence of entries starting from a non-existent note file. -/
def appendAll (entries : List String) : Option String :=
  entries.foldl (fun acc e => some (append_to_note acc e)) none

/-- Plain concatenation of a list of strings. -/
def concatAll : List String → String
  | [] => ""
  | e :: es => e ++ concatAll es

/-- The VCS query facade: each field is the processed result of the
corresponding `_run_git` wrapper (`_repo_root`, `_head_sha`, `_branch_name`,
`_merge_base`, `_git_log_oneline`, `_git_name_status`, `_git_shortstat`,
`_git_status_porcelain`); `Except.error` when the underlying `git` command
fails, in which case the wrapper raises `RuntimeError`. -/
structure Git where
  repo_root : Except String String
  head_sha : Except String String
  branch_name : Except String String
  merge_base : String → Except String String
  log_oneline : String → String → Except String (List String)
  name_status : String → String → Except String (List String)
  shortstat : String → String → Except String String
  status_porcelain : Except String (List String)

/-- The on-disk and environment state an invocation reads and writes. -/
structure World where
  cfgFile1 : FileModel
  cfgFile2 : FileModel
  stateFile : FileModel
  noteFile : Option String
  env_note : Option String

/-- Post-parse command-line arguments. -/
structure Args where
  note : Option String
  base : Option String
  since : Option String
  dry_run : Bool
  no_state : Bool
  no_diffstat : Bool

/-- Outcome of a completed (non-raising) invocation: the returned exit
status, the final on-disk state, and the accumulated stdout/stderr text. -/
structure MainResult where
  exit : Nat
  world : World
  stdout : String
  stderr : String

/-- `note = args.note or cfg.obsidian_note_path or os.environ.get(...)`. -/
def resolvedNote (argNote : Option String) (cfgNote : Option Json)
    (envNote : Option String) : Option String :=
  pyOrSS argNote (pyOrSS (jsonOptToStrOpt cfgNote) envNote)

/-- Start-commit resolution (`main`, lines 251-259): the `--since` override
when truthy; else the stored checkpoint when state is enabled; else the
merge-base of the base reference and HEAD. -/
def resolveStart (since : Option String) (no_state : Bool)
    (stateFile : FileModel) (mergeBase : Except String String) :
    Except String String := do
  let start1 : Option String ←
    if pyTruthyStr since then pure since
    else if !no_state then load_last_sha stateFile
    else pure none
  if pyTruthyStr start1 then pure (start1.getD "") else mergeBase

/-- `main`, lines 269-273: query the working tree only when both the commit
and file lists are empty, and keep the status list only when non-empty. -/
def computeWorkingTree (commits files : List String)
    (porcelain : Except String (List String)) :
    Except String (Option (List String)) :=
  if commits.isEmpty && files.isEmpty then
    porcelain.bind (fun wt => .ok (if wt.isEmpty then none else some wt))
  else .ok none

/-- `main`, line 265: run the diffstat query only when enabled. -/
def computeDiffstat (include_diffstat : Bool)
    (shortstat : Except String String) : Except String (Option String) :=
  if include_diffstat then shortstat.bind (fun d => .ok (some d)) else .ok none

/-- `main`, lines 266-267: an empty diffstat string becomes `None`. -/
def normalizeDiffstat : Option String → Option String
  | some s => if s = "" then none else some s
  | none => none

/-- The stderr message printed before returning exit status 2. -/
def missingNoteMsg : String :=
  "Missing Obsidian note path. Set it in .codex/obsidian-change-summary.json " ++
  "as obsidian_note_path, or pass --note, or set OBSIDIAN_NOTE_PATH."

/-- The stdout message of the no-changes short circuit. -/
def noChangesMsg : String :=
  "No changes detected (no commits, no diff, clean working tree)."

/-- `main` from the HEAD query onward (after the destination-note check):
resolve the range, run the queries, short-circuit on no changes, otherwise
format and either print or append-and-persist. -/
def mainCore (a : Args) (g : Git) (w : World) (ts : String) (cfg : Config)
    (note : Option String) (root : String) : Except String MainResult :=
  (g.head_sha).bind fun end_sha =>
  (resolveStart a.since a.no_state w.stateFile
      (g.merge_base (pyOrStr a.base cfg.base_ref))).bind fun start_sha =>
  (g.log_oneline start_sha end_sha).bind fun commits =>
  (g.name_status start_sha end_sha).bind fun files =>
  (computeDiffstat (cfg.include_diffstat && !a.no_diffstat)
      (g.shortstat start_sha end_sha)).bind fun diffstat0 =>
  let diffstat := normalizeDiffstat diffstat0
  (computeWorkingTree commits files g.status_porcelain).bind fun working_tree =>
  if commits.isEmpty && files.isEmpty && !optListTruthy working_tree then
    let w1 := if !a.no_state && !a.dry_run then
        { w with stateFile := write_last_sha end_sha } else w
    .ok ⟨0, w1, noChangesMsg ++ "\n", ""⟩
  else
    (g.branch_name).bind fun branch =>
    let entry := format_entry ts root (jsonOptToStrOpt cfg.project_name)
      branch start_sha end_sha commits files diffstat working_tree
      cfg.max_commits cfg.max_files
    if a.dry_run || !pyTruthyStr note then
      .ok ⟨0, w, entry, ""⟩
    else
      let w1 := { w with noteFile := some (append_to_note w.noteFile entry) }
      let w2 := if !a.no_state then
          { w1 with stateFile := write_last_sha end_sha } else w1
      .ok ⟨0, w2, "Appended change summary to: " ++ note.getD "" ++ "\n", ""⟩

/-- `main`: resolve the repository root, load configuration, check the
destination note path (exit 2 when undeterminable on a non-dry run), then run
the core.  `ts` is the wall-clock timestamp string (`datetime.now()`
formatted). -/
def main (a : Args) (g : Git) (w : World) (ts : String) :
    Except String MainResult :=
  (g.repo_root).bind fun root =>
  (load_config w.cfgFile1 w.cfgFile2).bind fun cfg =>
  let note := resolvedNote a.note cfg.obsidian_note_path w.env_note
  if !pyTruthyStr note && !a.dry_run then
    .ok ⟨2, w, "", missingNoteMsg ++ "\n"⟩
  else
    mainCore a g w ts cfg note root

end ChangeSummary

namespace ChangeSummary

/-- C10: checkpoint store round-trip — saving a commit identifier whose
whitespace-trimmed form is non-empty and then loading the checkpoint returns
`some` of the trimmed identifier. -/
theorem c10_checkpoint_round_trip (sha : String) (h : pyStrip sha ≠ "") :
    load_last_sha (write_last_sha sha) = .ok (some (pyStrip sha)) := by
  simp [load_last_sha, write_last_sha, write_json, read_json, dictGet,
    List.lookup, Bind.bind, Except.bind, pure, Except.pure, h]

theorem c10_witness :
    load_last_sha (write_last_sha "  abc  ") = .ok (some "abc") := by
  rw [c10_checkpoint_round_trip "  abc  " (by decide)]; rfl

end ChangeSummary

namespace ChangeSummary

/-- C4 counterexample: a present-but-malformed state file makes checkpoint
load raise a JSON decode error instead of returning `None`. -/
theorem c4_counterexample :
    load_last_sha (some none) = Except.error "JSONDecodeError" ∧
    load_last_sha (some none) ≠ Except.ok none := by
  refine ⟨rfl, ?_⟩
  intro h
  rw [show load_last_sha (some none) = Except.error "JSONDecodeError" from rfl] at h
  exact Except.noConfusion h

/-- C4 (amended): checkpoint load returns `None` when the state file is
absent, or when it parses to an object whose `last_sha` is missing, not a
string, or blank after trimming; a malformed state file raises to the
caller (only absence is caught). -/
theorem c4_load_behavior (f : FileModel) :
    (f = none → load_last_sha f = .ok none) ∧
    (∀ kvs, f = some (some (.obj kvs)) →
      load_last_sha f = .ok (match kvs.lookup "last_sha" with
        | some (.str s) => if pyStrip s != "" then some (pyStrip s) else none
        | _ => none)) ∧
    (f = some none → load_last_sha f = .error "JSONDecodeError") := by
  refine ⟨?_, ?_, ?_⟩
  · rintro rfl; rfl
  · rintro kvs rfl
    simp only [load_last_sha, read_json, dictGet, Bind.bind, Except.bind, pure,
      Except.pure]
    cases hlk : kvs.lookup "last_sha" with
    | none => rfl
    | some j => cases j <;> rfl
  · rintro rfl; rfl

theorem c4_witness :
    load_last_sha (some (some (.obj [("last_sha", .str "  abc  ")])))
      = .ok (some "abc") := by
  have h := (c4_load_behavior (some (some (.obj [("last_sha", .str "  abc  ")])))).2.1
    [("last_sha", .str "  abc  ")] rfl
  rw [h]; rfl

/-- C5 counterexample: a malformed configuration file does not fall back to
the default configuration; loading raises a JSON decode error. -/
theorem c5_counterexample :
    load_config (some none) none = Except.error "JSONDecodeError" ∧
    load_config (some none) none ≠
      Except.ok ⟨none, none, "origin/main", true, 20, 50⟩ := by
  refine ⟨rfl, ?_⟩
  intro h
  rw [show load_config (some none) none = Except.error "JSONDecodeError" from rfl] at h
  exact Except.noConfusion h

/-- C5 (amended): an absent configuration file (both candidate paths) yields
the defaults (no note path, no project name, base_ref `origin/main`,
diffstat enabled, max_commits 20, max_files 50); a malformed configuration
file at either path instead makes configuration loading raise. -/
theorem c5_config_defaults :
    load_config none none = .ok ⟨none, none, "origin/main", true, 20, 50⟩ ∧
    (∀ cfg2, load_config (some none) cfg2 = .error "JSONDecodeError") ∧
    load_config none (some none) = .error "JSONDecodeError" := by
  refine ⟨rfl, ?_, rfl⟩
  intro cfg2
  rfl

/-- C2: for a non-negative bound and a non-empty list, the Commits section
shows exactly the first `min(count, bound)` items in order, has an overflow
line stating the omitted count iff `count > bound`, and is omitted entirely
for an empty list; the Files section obeys the identical rule. -/
theorem c2_truncation (commits files : List String) (mc mf : Int)
    (hmc : 0 ≤ mc) (hmf : 0 ≤ mf) (hc : commits ≠ []) (hf : files ≠ []) :
    (commitsSection commits mc
      = "### Commits" :: ((commits.take mc.toNat).map (fun s => "- " ++ s)
          ++ overflowLines commits mc ++ [""]))
    ∧ ((commits.take mc.toNat).map (fun s => "- " ++ s)).length
        = min commits.length mc.toNat
    ∧ (overflowLines commits mc
        = if (commits.length : Int) > mc then
            ["- …and " ++ toString ((commits.length : Int) - mc) ++ " more"]
          else [])
    ∧ (filesSection files mf
      = "### Files" :: ((files.take mf.toNat).map (fun s => "- " ++ s)
          ++ overflowLines files mf ++ [""]))
    ∧ ((files.take mf.toNat).map (fun s => "- " ++ s)).length
        = min files.length mf.toNat
    ∧ (overflowLines files mf
        = if (files.length : Int) > mf then
            ["- …and " ++ toString ((files.length : Int) - mf) ++ " more"]
          else [])
    ∧ commitsSection [] mc = [] ∧ filesSection [] mf = [] := by
  refine ⟨?_, ?_, ?_, ?_, ?_, ?_, rfl, rfl⟩
  · simp [commitsSection, listSection, hc, max_eq_right hmc]
  · simp [List.length_take, Nat.min_comm]
  · simp only [overflowLines, hmc, true_and]
  · simp [filesSection, listSection, hf, max_eq_right hmf]
  · simp [List.length_take, Nat.min_comm]
  · simp only [overflowLines, hmf, true_and]

theorem c2_witness :
    commitsSection ["a", "b", "c"] 2
      = ["### Commits", "- a", "- b", "- …and 1 more", ""] := by
  rw [(c2_truncation ["a", "b", "c"] ["f1"] 2 50 (by decide) (by decide)
    (by decide) (by decide)).1]
  rfl

/-- C3 counterexample: with a negative bound and a non-empty list the section
shows no entries, but contrary to the claim no overflow line is appended
either — the section reduces to its header and a blank line. -/
theorem c3_counterexample :
    commitsSection ["a"] (-1) = ["### Commits", ""] ∧
    ("- …and 1 more" ∈ commitsSection ["a"] (-1) → False) ∧
    filesSection ["f"] (-1) = ["### Files", ""] := by
  refine ⟨rfl, ?_, rfl⟩
  intro h
  rw [show commitsSection ["a"] (-1) = ["### Commits", ""] from rfl] at h
  simp at h

/-- C3 (amended): for a negative `max_commits` (resp. `max_files`) and a
non-empty list, the formatter shows no list entries and also appends no
overflow line, because the overflow guard requires a non-negative bound. -/
theorem c3_negative_bound (items : List String) (b : Int)
    (hb : b < 0) (hne : items ≠ []) :
    commitsSection items b = ["### Commits", ""] ∧
    filesSection items b = ["### Files", ""] ∧
    overflowLines items b = [] := by
  have h0 : ¬ (0 ≤ b) := not_le.mpr hb
  have hmax : max 0 b = 0 := max_eq_left (le_of_lt hb)
  refine ⟨?_, ?_, ?_⟩ <;>
    simp [commitsSection, filesSection, listSection, overflowLines, hne, h0, hmax]

theorem c3_witness :
    commitsSection ["a", "b"] (-5) = ["### Commits", ""] :=
  (c3_negative_bound ["a", "b"] (-5) (by decide) (by decide)).1

/-- Any `some` value returned by a successful checkpoint load is a non-empty
string. -/
theorem load_last_sha_some_ne (f : FileModel) (v : String)
    (h : load_last_sha f = .ok (some v)) : v ≠ "" := by
  match f with
  | none => simp [load_last_sha, read_json, dictGet, Bind.bind, Except.bind,
      pure, Except.pure] at h
  | some none => simp [load_last_sha, read_json, Bind.bind, Except.bind] at h
  | some (some j) =>
    cases j with
    | obj kvs =>
      simp only [load_last_sha, read_json, dictGet, Bind.bind, Except.bind,
        pure, Except.pure] at h
      cases hlk : kvs.lookup "last_sha" with
      | none => rw [hlk] at h; simp at h
      | some j2 =>
        rw [hlk] at h
        cases j2 with
        | str s =>
          by_cases ht : pyStrip s = ""
          · simp [ht] at h
          · simp [ht] at h
            exact fun hv => ht (h.trans hv)
        | null => simp at h
        | bool b => simp at h
        | int n => simp at h
        | obj kvs2 => simp at h
    | null => simp [load_last_sha, read_json, dictGet, Bind.bind, Except.bind] at h
    | bool b => simp [load_last_sha, read_json, dictGet, Bind.bind, Except.bind] at h
    | int n => simp [load_last_sha, read_json, dictGet, Bind.bind, Except.bind] at h
    | str s => simp [load_last_sha, read_json, dictGet, Bind.bind, Except.bind] at h

/-- C1: range-start resolution priority — a given (non-empty) explicit
override wins over everything, else a stored checkpoint when state is
enabled, else the merge-base result; in particular the override beats a
stored checkpoint. -/
theorem c1_range_start_priority (since : Option String) (ns : Bool)
    (f : FileModel) (mb : Except String String) :
    (∀ s, since = some s → s ≠ "" →
      resolveStart since ns f mb = .ok s) ∧
    (pyTruthyStr since = false → ns = false → ∀ v,
      load_last_sha f = .ok (some v) →
      resolveStart since ns f mb = .ok v) ∧
    (pyTruthyStr since = false →
      (ns = true ∨ load_last_sha f = .ok none) →
      resolveStart since ns f mb = mb) := by
  refine ⟨?_, ?_, ?_⟩
  · rintro s rfl hs
    have hts : pyTruthyStr (some s) = true := by simp [pyTruthyStr, hs]
    simp [resolveStart, hts, Bind.bind, Except.bind, pure, Except.pure,
      Option.getD]
  · intro hsince hns v hload
    have hv : v ≠ "" := load_last_sha_some_ne f v hload
    have htv : pyTruthyStr (some v) = true := by simp [pyTruthyStr, hv]
    simp [resolveStart, hsince, hns, hload, htv, Bind.bind, Except.bind,
      pure, Except.pure]
  · intro hsince hcase
    have htn : pyTruthyStr (none : Option String) = false := rfl
    rcases hcase with hns | hload
    · simp [resolveStart, hsince, hns, htn, Bind.bind, Except.bind, pure,
        Except.pure]
    · cases hns : ns
      · simp [resolveStart, hsince, hns, hload, htn, Bind.bind, Except.bind,
          pure, Except.pure]
      · simp [resolveStart, hsince, hns, htn, Bind.bind, Except.bind, pure,
          Except.pure]

theorem c1_witness :
    resolveStart (some "abc") false (write_last_sha "stored") (.ok "mbase")
      = .ok "abc" :=
  (c1_range_start_priority (some "abc") false (write_last_sha "stored")
    (.ok "mbase")).1 "abc" rfl (by decide)

end ChangeSummary

namespace ChangeSummary

/-- The head of `dropWhile p l` never satisfies `p`. -/
theorem head_dropWhile_false (p : Char → Bool) (l : List Char) (c : Char)
    (h : (l.dropWhile p).head? = some c) : p c = false := by
  induction l with
  | nil => simp [List.dropWhile] at h
  | cons a as ih =>
    rw [List.dropWhile] at h
    by_cases hp : p a
    · rw [hp] at h; simp at h; exact ih h
    · simp [hp] at h; subst h; simpa using hp

/-- `rstrip` output never ends in a newline. -/
theorem endsWithNewline_rstrip (s : String) :
    endsWithNewline (rstrip s) = false := by
  have hd : (rstrip s).data = (s.data.reverse.dropWhile Char.isWhitespace).reverse := rfl
  unfold endsWithNewline
  rw [hd, List.getLast?_reverse]
  cases h : (s.data.reverse.dropWhile Char.isWhitespace).head? with
  | none => rfl
  | some c =>
    have hc := head_dropWhile_false _ _ _ h
    have : c ≠ '\n' := by
      intro hca
      rw [hca] at hc
      simp at hc
    simp [this]

/-- Appending to a newline-terminated string stays newline-terminated. -/
theorem endsWithNewline_append (a e : String)
    (h : endsWithNewline e = true) : endsWithNewline (a ++ e) = true := by
  unfold endsWithNewline at *
  rw [String.data_append]
  have hne : e.data ≠ [] := by
    intro hnil
    rw [hnil] at h
    simp at h
  rw [List.getLast?_append_of_ne_nil a.data hne]
  exact h

/-- Folding the appender over newline-terminated entries concatenates them. -/
theorem foldl_append_all (entries : List String) (acc : String)
    (ha : endsWithNewline acc = true)
    (h : ∀ e ∈ entries, endsWithNewline e = true) :
    entries.foldl (fun a e => some (append_to_note a e)) (some acc)
      = some (acc ++ concatAll entries) := by
  induction entries generalizing acc with
  | nil => simp [concatAll]
  | cons e es ih =>
    simp only [List.foldl]
    have h1 : append_to_note (some acc) e = acc ++ e := by
      simp [append_to_note, ha]
    rw [h1]
    rw [ih (acc ++ e) (endsWithNewline_append acc e (h e (by simp)))
      (fun x hx => h x (by simp [hx]))]
    simp [concatAll, String.append_assoc]

/-- C6: every formatted entry ends with exactly one trailing newline; the
appender inserts a single newline separator exactly when the existing content
does not already end in one (preserving the prior content as a prefix); and
appending entries that each end in a newline, starting from a non-existent
file, yields exactly their concatenation. -/
theorem c6_append_round_trip :
    (∀ ts repo_root project_name branch start_sha end_sha commits files
        diffstat working_tree max_commits max_files,
      ∃ b, format_entry ts repo_root project_name branch start_sha end_sha
          commits files diffstat working_tree max_commits max_files
        = b ++ "\n" ∧ endsWithNewline b = false) ∧
    (∀ existing entry, append_to_note (some existing) entry
      = existing ++ (if endsWithNewline existing then "" else "\n") ++ entry) ∧
    (∀ entries, entries ≠ [] →
      (∀ e ∈ entries, endsWithNewline e = true) →
      appendAll entries = some (concatAll entries)) := by
  refine ⟨?_, ?_, ?_⟩
  · intro ts repo_root project_name branch start_sha end_sha commits files
      diffstat working_tree max_commits max_files
    exact ⟨_, rfl, endsWithNewline_rstrip _⟩
  · intro existing entry
    rfl
  · intro entries hne h
    match entries with
    | [] => exact absurd rfl hne
    | e :: es =>
      show (e :: es).foldl (fun a x => some (append_to_note a x)) none
        = some (concatAll (e :: es))
      simp only [List.foldl]
      have : append_to_note none e = e := rfl
      rw [this]
      rw [foldl_append_all es e (h e (by simp)) (fun x hx => h x (by simp [hx]))]
      rfl

theorem c6_witness :
    appendAll ["x\n", "y\n"] = some "x\ny\n" := by
  rw [c6_append_round_trip.2.2 ["x\n", "y\n"] (by decide) (by decide)]
  rfl

end ChangeSummary

namespace ChangeSummary

/-- C9: the Working tree section appears only as a fallback when both the
commit and file lists are empty and the porcelain status is non-empty, and
then lists each status line verbatim as a bullet; when either the Commits or
Files section is present the working-tree argument is `None` and the section
is absent. -/
theorem c9_working_tree_fallback (commits files : List String)
    (p : Except String (List String)) (wt : Option (List String))
    (h : computeWorkingTree commits files p = .ok wt) :
    (∀ l, wt = some l →
      commits = [] ∧ files = [] ∧ p = .ok l ∧ l ≠ [] ∧
      wtSection wt = "### Working tree (uncommitted)"
          :: (l.map (fun s => "- " ++ s) ++ [""]) ∧
      (∀ mc : Int, commitsSection commits mc = []) ∧
      (∀ mf : Int, filesSection files mf = [])) ∧
    ((commits ≠ [] ∨ files ≠ []) → wt = none ∧ wtSection wt = []) := by
  unfold computeWorkingTree at h
  by_cases hce : commits.isEmpty && files.isEmpty
  · rw [if_pos hce] at h
    have hc : commits = [] := by
      have := (Bool.and_eq_true _ _).mp hce
      exact List.isEmpty_iff.mp this.1
    have hf : files = [] := by
      have := (Bool.and_eq_true _ _).mp hce
      exact List.isEmpty_iff.mp this.2
    cases hp : p with
    | error e =>
      rw [hp] at h
      exact absurd h (by simp [Except.bind])
    | ok l0 =>
      rw [hp] at h
      simp only [Except.bind] at h
      by_cases hl0 : l0.isEmpty
      · rw [if_pos hl0] at h
        simp at h
        refine ⟨?_, ?_⟩
        · intro l hl
          rw [← h] at hl
          exact absurd hl (by simp)
        · intro hor
          rcases hor with hx | hx
          · exact absurd hc hx
          · exact absurd hf hx
      · rw [if_neg hl0] at h
        simp at h
        refine ⟨?_, ?_⟩
        · intro l hl
          rw [← h] at hl
          have hl' : l0 = l := by simpa using hl
          subst hl'
          refine ⟨hc, hf, rfl, fun hnil => hl0 (by simp [hnil]), ?_, ?_, ?_⟩
          · rw [← h]
            simp [wtSection, hl0]
          · intro mc; rw [hc]; rfl
          · intro mf; rw [hf]; rfl
        · intro hor
          rcases hor with hx | hx
          · exact absurd hc hx
          · exact absurd hf hx
  · rw [if_neg hce] at h
    simp at h
    refine ⟨?_, ?_⟩
    · intro l hl
      rw [← h] at hl
      exact absurd hl (by simp)
    · intro hor
      exact ⟨h.symm, by rw [← h]; rfl⟩



theorem c9_witness :
    wtSection (some ["M f"]) = "### Working tree (uncommitted)"
      :: (["M f"].map (fun s => "- " ++ s) ++ [""]) :=
  ((c9_working_tree_fallback [] [] (.ok ["M f"]) (some ["M f"]) rfl).1
    ["M f"] rfl).2.2.2.2.1

end ChangeSummary

namespace ChangeSummary

/-- Every completed (non-raising) run of the post-check core returns exit
status 0. -/
theorem mainCore_exit_zero (a : Args) (g : Git) (w : World) (ts : String)
    (cfg : Config) (note : Option String) (root : String) (res : MainResult)
    (h : mainCore a g w ts cfg note root = .ok res) : res.exit = 0 := by
  unfold mainCore at h
  simp only [Except.bind] at h
  repeat' split at h
  all_goals
    first
    | (injection h with h; rw [← h])
    | exact absurd h (by simp)

end ChangeSummary

namespace ChangeSummary

/-- C8: exit status 2 is returned exactly when the destination note path is
undeterminable (flag, configuration and environment all falsy) on a non-dry
run, in which case no file is touched; every other completed run returns
exit status 0. -/
theorem c8_exit_code_contract (a : Args) (g : Git) (w : World) (ts root : String)
    (cfg : Config)
    (h1 : g.repo_root = .ok root)
    (h2 : load_config w.cfgFile1 w.cfgFile2 = .ok cfg) :
    ((pyTruthyStr (resolvedNote a.note cfg.obsidian_note_path w.env_note) = false
        ∧ a.dry_run = false) →
      main a g w ts = .ok ⟨2, w, "", missingNoteMsg ++ "\n"⟩) ∧
    (∀ res, main a g w ts = .ok res → res.exit = 0 ∨ res.exit = 2) ∧
    (∀ res, main a g w ts = .ok res → res.exit = 2 →
      (pyTruthyStr (resolvedNote a.note cfg.obsidian_note_path w.env_note) = false
        ∧ a.dry_run = false) ∧ res.world = w) := by
  have hm : main a g w ts =
      (if (!pyTruthyStr (resolvedNote a.note cfg.obsidian_note_path w.env_note)
          && !a.dry_run) = true then
        .ok ⟨2, w, "", missingNoteMsg ++ "\n"⟩
      else mainCore a g w ts cfg
        (resolvedNote a.note cfg.obsidian_note_path w.env_note) root) := by
    unfold main
    rw [h1, h2]
    simp only [Except.bind]
  refine ⟨?_, ?_, ?_⟩
  · rintro ⟨hn, hd⟩
    rw [hm, if_pos (by rw [hn, hd]; rfl)]
  · intro res hres
    rw [hm] at hres
    by_cases hc : (!pyTruthyStr (resolvedNote a.note cfg.obsidian_note_path
        w.env_note) && !a.dry_run) = true
    · rw [if_pos hc] at hres
      injection hres with h
      right; rw [← h]
    · rw [if_neg hc] at hres
      left; exact mainCore_exit_zero _ _ _ _ _ _ _ _ hres
  · intro res hres hex
    rw [hm] at hres
    by_cases hc : (!pyTruthyStr (resolvedNote a.note cfg.obsidian_note_path
        w.env_note) && !a.dry_run) = true
    · have hc2 : pyTruthyStr (resolvedNote a.note cfg.obsidian_note_path
          w.env_note) = false ∧ a.dry_run = false := by
        simpa [Bool.and_eq_true, Bool.not_eq_true'] using hc
      rw [if_pos hc] at hres
      injection hres with h
      exact ⟨hc2, by rw [← h]⟩
    · rw [if_neg hc] at hres
      have h0 := mainCore_exit_zero _ _ _ _ _ _ _ _ hres
      rw [h0] at hex
      exact absurd hex (by decide)

theorem c8_witness :
    main ⟨none, none, none, false, false, false⟩
      ⟨.ok "/r", .ok "h", .ok "b", fun _ => .ok "m", fun _ _ => .ok [],
        fun _ _ => .ok [], fun _ _ => .ok "", .ok []⟩
      ⟨none, none, none, none, none⟩ "ts"
      = .ok ⟨2, ⟨none, none, none, none, none⟩, "", missingNoteMsg ++ "\n"⟩ :=
  (c8_exit_code_contract ⟨none, none, none, false, false, false⟩
    ⟨.ok "/r", .ok "h", .ok "b", fun _ => .ok "m", fun _ _ => .ok [],
      fun _ _ => .ok [], fun _ _ => .ok "", .ok []⟩
    ⟨none, none, none, none, none⟩ "ts" "/r"
    ⟨none, none, "origin/main", true, 20, 50⟩ rfl rfl).1 ⟨rfl, rfl⟩

end ChangeSummary

namespace ChangeSummary

/-- C7: when the commit list, the changed-file list and the porcelain status
are all empty, the run prints the no-changes message, returns exit status 0,
leaves the note file untouched, and persists HEAD as the new checkpoint
unless state is disabled or the run is a dry run. -/
theorem c7_no_changes_short_circuit (a : Args) (g : Git) (w : World)
    (ts root : String) (cfg : Config) (end_sha start_sha d : String)
    (h1 : g.repo_root = .ok root)
    (h2 : load_config w.cfgFile1 w.cfgFile2 = .ok cfg)
    (h3 : pyTruthyStr (resolvedNote a.note cfg.obsidian_note_path w.env_note)
        = true ∨ a.dry_run = true)
    (h4 : g.head_sha = .ok end_sha)
    (h5 : resolveStart a.since a.no_state w.stateFile
        (g.merge_base (pyOrStr a.base cfg.base_ref)) = .ok start_sha)
    (h6 : g.log_oneline start_sha end_sha = .ok [])
    (h7 : g.name_status start_sha end_sha = .ok [])
    (h8 : g.shortstat start_sha end_sha = .ok d)
    (h9 : g.status_porcelain = .ok []) :
    main a g w ts = .ok ⟨0,
      (if (!a.no_state && !a.dry_run) = true then
        { w with stateFile := write_last_sha end_sha } else w),
      noChangesMsg ++ "\n", ""⟩ := by
  have hcond : (!pyTruthyStr (resolvedNote a.note cfg.obsidian_note_path
      w.env_note) && !a.dry_run) = false := by
    rcases h3 with h | h <;> simp [h]
  have hdiff : ∃ d0, computeDiffstat (cfg.include_diffstat && !a.no_diffstat)
      (g.shortstat start_sha end_sha) = .ok d0 := by
    cases hb : (cfg.include_diffstat && !a.no_diffstat)
    · exact ⟨none, by simp [computeDiffstat]⟩
    · exact ⟨some d, by simp [computeDiffstat, h8, Except.bind]⟩
  obtain ⟨d0, hd0⟩ := hdiff
  have hwt : computeWorkingTree [] [] g.status_porcelain = .ok none := by
    simp [computeWorkingTree, h9, Except.bind]
  unfold main
  rw [h1, h2]
  simp only [Except.bind]
  rw [hcond]
  simp only [Bool.false_eq_true, if_false]
  unfold mainCore
  rw [h4]
  simp only [Except.bind]
  simp only [h5, h6, h7, hd0, hwt]
  simp [optListTruthy]

end ChangeSummary

namespace ChangeSummary

theorem c7_witness :
    main ⟨some "n.md", none, none, false, false, false⟩
      ⟨.ok "/r", .ok "h", .ok "b", fun _ => .ok "m", fun _ _ => .ok [],
        fun _ _ => .ok [], fun _ _ => .ok "", .ok []⟩
      ⟨none, none, none, none, none⟩ "ts"
      = .ok ⟨0, ⟨none, none, write_last_sha "h", none, none⟩,
          noChangesMsg ++ "\n", ""⟩ := by
  rw [c7_no_changes_short_circuit ⟨some "n.md", none, none, false, false, false⟩
    ⟨.ok "/r", .ok "h", .ok "b", fun _ => .ok "m", fun _ _ => .ok [],
      fun _ _ => .ok [], fun _ _ => .ok "", .ok []⟩
    ⟨none, none, none, none, none⟩ "ts" "/r"
    ⟨none, none, "origin/main", true, 20, 50⟩ "h" "m" ""
    rfl rfl (Or.inl rfl) rfl rfl rfl rfl rfl rfl]
  rfl

end ChangeSummary
